import Mathlib

/-!
Shallow embedding of the batch messaging job engine of the residency
repository (backend/apps/messaging: models.py, tasks.py, views.py,
sms_backends.py), together with proofs of the specification claims.

Modelling conventions:
- Timestamps are abstract ticks (Nat); timezone.now() becomes an explicit
  "now" parameter.
- A transport outcome is "Option String": none means the provider call
  succeeded, "some e" means it raised an exception whose text is e
  (str(e) in the source).
- Database rows are Lean structures; a job's recipient tables are lists
  ordered by primary key (the source always reads them with ordering
  ["id"]), and a per-row save is an in-place update at the row's position.
- Atomic F-expression counter updates become plain additions: the claims
  are settled against the sequential interleavings of whole operations,
  which is how the spec states its observation points.
- Crash/interruption of a dispatcher run is modelled by a budget: the run
  processes only the first k units of its pending snapshot (k recipients
  for email, k unique numbers for SMS) and stops, exactly as a mid-run
  crash leaves the remaining snapshot untouched.
-/

namespace Residency

/-- Status choices of EmailRecipient.Status / SMSRecipient.Status (models.py). -/
inductive RStatus
  | pending
  | sent
  | failed
deriving DecidableEq, Repr

/-- Status choices of MessageJob.Status (models.py). -/
inductive JStatus
  | pending
  | processing
  | completed
  | failed
deriving DecidableEq, Repr

/-- Channel choices (models.py). -/
inductive Channel
  | email
  | sms
deriving DecidableEq, Repr

/-- One row of message_email_recipients or message_sms_recipients
(models.py EmailRecipient / SMSRecipient: the two row types are
structurally identical; dest is the snapshotted email_address or
phone_number). The residence foreign key is display-only and omitted. -/
structure Recipient where
  dest : String
  status : RStatus := .pending
  error_message : String := ""
  sent_at : Option Nat := none
deriving DecidableEq, Repr

/-- One row of message_jobs (models.py MessageJob). The sender foreign key
and created_at are omitted (never read by the engine). -/
structure MessageJob where
  subject : String := ""
  body : String := ""
  sms_body : String := ""
  channels : List Channel := []
  status : JStatus := .pending
  email_total_recipients : Nat := 0
  email_sent_count : Nat := 0
  email_failed_count : Nat := 0
  sms_total_recipients : Nat := 0
  sms_sent_count : Nat := 0
  sms_failed_count : Nat := 0
  total_recipients : Nat := 0
  sent_count : Nat := 0
  failed_count : Nat := 0
  error_message : String := ""
  started_at : Option Nat := none
  completed_at : Option Nat := none
deriving DecidableEq, Repr

/-- The persistent state of one job: its row plus its two recipient tables. -/
structure JobState where
  job : MessageJob
  emailRecipients : List Recipient
  smsRecipients : List Recipient
deriving DecidableEq, Repr

/-- Result of one channel dispatcher run: the updated recipient table, the
two counter increments applied to the job row, and the ordered log of
transport send calls (one destination per provider call). -/
structure DispatchResult where
  recipients : List Recipient
  sentInc : Nat
  failedInc : Nat
  calls : List String
deriving DecidableEq, Repr

/-- Number of rows in a recipient table with the given status. -/
def countStatus (s : RStatus) (rs : List Recipient) : Nat :=
  rs.countP (fun r => decide (r.status = s))

/-- Mirrors "job.email_recipients.filter(status=PENDING).exists()" (and the
SMS twin) in finalize_job (tasks.py). -/
def hasPending (rs : List Recipient) : Bool :=
  rs.any (fun r => decide (r.status = RStatus.pending))

/-!
## Email dispatcher (tasks.py process_email_recipients)

The function snapshots the pending email recipients, walks them in batches
(batching only inserts throttling sleeps; the per-recipient work is a flat
left-to-right loop over the snapshot, see the batching section below), and
for each one calls send_mail: on success the row becomes sent with a
timestamp and both email_sent_count and the legacy sent_count are
incremented; on an exception the row becomes failed with the exception
text and both email_failed_count and failed_count are incremented.

processEmailList walks the full table, touching only rows that are pending
(the snapshot), with a budget k of transport calls before the run is
interrupted; a completed run is the special case of a large enough budget.
-/

def processEmailList (oracle : String → Option String) (now : Nat) :
    Nat → List Recipient → DispatchResult
  | _, [] => ⟨[], 0, 0, []⟩
  | k, r :: rest =>
    if r.status = RStatus.pending then
      match k with
      | 0 => ⟨r :: rest, 0, 0, []⟩
      | Nat.succ k =>
        let out := processEmailList oracle now k rest
        match oracle r.dest with
        | none =>
          ⟨{ r with status := .sent, sent_at := some now } :: out.recipients,
            out.sentInc + 1, out.failedInc, r.dest :: out.calls⟩
        | some e =>
          ⟨{ r with status := .failed, error_message := e } :: out.recipients,
            out.sentInc, out.failedInc + 1, r.dest :: out.calls⟩
    else
      let out := processEmailList oracle now k rest
      ⟨r :: out.recipients, out.sentInc, out.failedInc, out.calls⟩

/-- tasks.py process_email_recipients: returns the updated job state and the
ordered log of send_mail calls, processing at most k pending recipients. -/
def process_email_recipients (oracle : String → Option String) (now k : Nat)
    (st : JobState) : JobState × List String :=
  let out := processEmailList oracle now k st.emailRecipients
  ({ st with
      emailRecipients := out.recipients,
      job := { st.job with
        email_sent_count := st.job.email_sent_count + out.sentInc,
        sent_count := st.job.sent_count + out.sentInc,
        email_failed_count := st.job.email_failed_count + out.failedInc,
        failed_count := st.job.failed_count + out.failedInc } },
    out.calls)

/-!
## SMS backend selection (sms_backends.py)

get_sms_backend resolves the SMS_BACKEND dotted path; an unresolvable path
raises SMSError before any recipient is touched. ConsoleSMSBackend.send
always succeeds. MNotifyBackend.send first checks its credentials
(MNOTIFY_API_KEY and MNOTIFY_SENDER_ID, empty string when unset) and
raises SMSError("MNotify backend not configured. Check settings.") when
either is missing; with credentials present the outcome is the provider
call's (the network oracle here).

A loaded backend is a send function String to Option String; "none" for
the whole factory models the SMSError raised by get_sms_backend itself.
-/

/-- The SMS_BACKEND configuration: a console backend, an MNotify backend
with its two credential settings (empty string when unset, matching the
getattr defaults), or a dotted path that cannot be imported. -/
inductive SMSBackendSetting
  | console
  | mnotify (api_key sender_id : String)
  | unloadable
deriving DecidableEq, Repr

/-- sms_backends.py get_sms_backend composed with the loaded backend's
send method. -/
def get_sms_backend (cfg : SMSBackendSetting) (network : String → Option String) :
    Option (String → Option String) :=
  match cfg with
  | .console => some (fun _ => none)
  | .mnotify api_key sender_id =>
    some (fun dst =>
      if api_key = "" ∨ sender_id = "" then
        some "MNotify backend not configured. Check settings."
      else network dst)
  | .unloadable => none

/-!
## SMS dispatcher (tasks.py process_sms_recipients)

The function snapshots the pending SMS recipients, groups them by phone
number in first-occurrence order (a Python dict preserves insertion
order), and performs one backend send per unique number; the outcome of
that one call is applied to every recipient of the group: all become sent
with one shared timestamp, or all become failed with the shared exception
text (SMSError and any other exception are handled identically), and
sms_sent_count or sms_failed_count grows by the group size. The legacy
job counters are never touched.
-/

/-- True of a row that is pending and snapshotted under phone number x. -/
def isPendingFor (x : String) (r : Recipient) : Bool :=
  decide (r.status = RStatus.pending ∧ r.dest = x)

/-- Apply the outcome of the one send to number x to a row: only rows of
the group (pending, number x) change, exactly as the source writes back
precisely the rows of phone_to_recipients[phone_number]. -/
def markRecipient (oracle : String → Option String) (now : Nat) (x : String)
    (r : Recipient) : Recipient :=
  if r.status = RStatus.pending ∧ r.dest = x then
    match oracle x with
    | none => { r with status := .sent, sent_at := some now }
    | some e => { r with status := .failed, error_message := e }
  else r

/-- The per-unique-number loop of process_sms_recipients, over the listed
numbers in order. -/
def runSMSDests (oracle : String → Option String) (now : Nat) :
    List String → List Recipient → DispatchResult
  | [], rs => ⟨rs, 0, 0, []⟩
  | x :: xs, rs =>
    let g := rs.countP (isPendingFor x)
    let out := runSMSDests oracle now xs (rs.map (markRecipient oracle now x))
    match oracle x with
    | none => ⟨out.recipients, out.sentInc + g, out.failedInc, x :: out.calls⟩
    | some _ => ⟨out.recipients, out.sentInc, out.failedInc + g, x :: out.calls⟩

/-- First-occurrence de-duplication: the key order of the defaultdict built
by appending each pending recipient's number in table order. -/
def firstOccur (l : List String) : List String :=
  l.foldl (fun acc d => if d ∈ acc then acc else acc ++ [d]) []

/-- unique_numbers of process_sms_recipients: the distinct numbers of the
pending snapshot, in first-occurrence order. -/
def pendingDests (rs : List Recipient) : List String :=
  firstOccur ((rs.filter (fun r => decide (r.status = RStatus.pending))).map (·.dest))

/-- tasks.py process_sms_recipients: returns the updated job state and the
ordered log of backend send calls, processing at most k unique numbers.
A backend of none is get_sms_backend raising SMSError: the dispatcher
aborts before reading any recipient (the outer handler only logs). -/
def process_sms_recipients (backend : Option (String → Option String))
    (now k : Nat) (st : JobState) : JobState × List String :=
  match backend with
  | none => (st, [])
  | some send =>
    let dests := pendingDests st.smsRecipients
    let out := runSMSDests send now (dests.take k) st.smsRecipients
    ({ st with
        smsRecipients := out.recipients,
        job := { st.job with
          sms_sent_count := st.job.sms_sent_count + out.sentInc,
          sms_failed_count := st.job.sms_failed_count + out.failedInc } },
      out.calls)

/-- The composite per-row effect of one SMS dispatcher run that worked
through the number list ds: each number's mark is applied in order. Proved
below to be exactly what runSMSDests does to the recipient table. -/
def markFold (o : String → Option String) (now : Nat) (ds : List String)
    (r : Recipient) : Recipient :=
  ds.foldl (fun r x => markRecipient o now x r) r

/-!
## Orchestrator (tasks.py finalize_job, process_message_job)
-/

/-- tasks.py finalize_job: if neither channel still has a pending row the
job becomes completed with a completion timestamp; otherwise nothing
changes. -/
def finalize_job (now : Nat) (st : JobState) : JobState :=
  if hasPending st.emailRecipients || hasPending st.smsRecipients then st
  else { st with job := { st.job with status := .completed, completed_at := some now } }

/-- The except-branches of process_message_job and finalize_job: the job is
stamped failed with the captured error text and a completion time. -/
def markJobFailed (err : String) (now : Nat) (st : JobState) : JobState :=
  { st with job := { st.job with
      status := .failed, error_message := err, completed_at := some now } }

/-- tasks.py process_message_job: under the row lock, a completed job is a
no-op; otherwise (every other member of the four-value status enum is in
the allowed list [pending, processing, failed], so the unknown-status
branch is unreachable) the status becomes processing and started_at is
set only if unset; then one dispatcher per enabled channel runs with a
full budget, and the job is finalized. The two channel threads only
touch disjoint rows and counters, so their parallel run is observed as
this sequential composition. -/
def process_message_job (emailOracle : String → Option String)
    (smsBackend : Option (String → Option String)) (now : Nat)
    (st : JobState) : JobState :=
  if st.job.status = JStatus.completed then st
  else
    let st1 : JobState := { st with job := { st.job with
      status := .processing, started_at := some (st.job.started_at.getD now) } }
    let st2 := if Channel.email ∈ st1.job.channels then
        (process_email_recipients emailOracle now st1.emailRecipients.length st1).1
      else st1
    let st3 := if Channel.sms ∈ st2.job.channels then
        (process_sms_recipients smsBackend now st2.smsRecipients.length st2).1
      else st2
    finalize_job now st3

/-!
## Retry endpoint (views.py MessageJobViewSet.retry)
-/

/-- The per-row update of the two reset querysets in retry: a failed row
goes back to pending with cleared error text and sent time; other rows
are outside the queryset and unchanged. -/
def resetFailedRecipient (r : Recipient) : Recipient :=
  if r.status = RStatus.failed then
    { r with status := .pending, error_message := "", sent_at := none }
  else r

/-- views.py retry: rejected with a 400 detail when neither channel has a
failed row; otherwise failed rows of each channel with failures are reset
to pending, that channel's failed counter (and, for email, the legacy
failed_count) is zeroed, the job returns to processing with cleared
error_message and completed_at, and start_message_job is invoked (the
returned flag). -/
def retry (st : JobState) : Except String (JobState × Bool) :=
  let email_failed := countStatus .failed st.emailRecipients
  let sms_failed := countStatus .failed st.smsRecipients
  if email_failed = 0 ∧ sms_failed = 0 then
    .error "No failed recipients to retry."
  else
    let ers := if 0 < email_failed then st.emailRecipients.map resetFailedRecipient
      else st.emailRecipients
    let srs := if 0 < sms_failed then st.smsRecipients.map resetFailedRecipient
      else st.smsRecipients
    let job1 := if 0 < email_failed then
        { st.job with email_failed_count := 0, failed_count := 0 }
      else st.job
    let job2 := if 0 < sms_failed then { job1 with sms_failed_count := 0 } else job1
    .ok ({ st with
            job := { job2 with
              status := .processing, error_message := "", completed_at := none },
            emailRecipients := ers, smsRecipients := srs },
         true)

/-!
## Job creation (views.py MessageJobViewSet.create, tasks.py resolvers)
-/

/-- A residence as the engine sees it: its labelled contact records, each
optionally flagged primary, in queryset order. -/
structure Residence where
  email_addresses : List (String × Bool)
  phone_numbers : List (String × Bool)
deriving DecidableEq, Repr

/-- tasks.py get_recipient_email: the first primary-flagged address, else
the first address, else none. -/
def get_recipient_email (r : Residence) : Option String :=
  match r.email_addresses.find? (fun e => e.2) with
  | some e => some e.1
  | none => r.email_addresses.head?.map (·.1)

/-- tasks.py get_recipient_phone: the first primary-flagged number, else
the first number, else none. -/
def get_recipient_phone (r : Residence) : Option String :=
  match r.phone_numbers.find? (fun e => e.2) with
  | some e => some e.1
  | none => r.phone_numbers.head?.map (·.1)

/-- views.py create: residences with at least one contact record are
collected per enabled channel; if both lists are empty the request is
rejected with a 400 before any row is written; otherwise the job row is
created, recipient rows are bulk-created from the resolved destinations,
and the channel totals (and the legacy total, mirroring email) are set
when the respective recipient list is nonempty. The final
start_message_job call is asynchronous and so not part of the returned
state. -/
def create_job (subject body sms_body : String) (channels : List Channel)
    (residences : List Residence) : Except String JobState :=
  let email_residences := if Channel.email ∈ channels then
      residences.filter (fun r => !r.email_addresses.isEmpty) else []
  let sms_residences := if Channel.sms ∈ channels then
      residences.filter (fun r => !r.phone_numbers.isEmpty) else []
  if email_residences.isEmpty ∧ sms_residences.isEmpty then
    .error "No residences with contact information found for the selected channels."
  else
    let email_recipients := email_residences.filterMap (fun r =>
        (get_recipient_email r).map (fun e => ({ dest := e } : Recipient)))
    let sms_recipients := sms_residences.filterMap (fun r =>
        (get_recipient_phone r).map (fun p => ({ dest := p } : Recipient)))
    let job0 : MessageJob :=
      { subject := subject, body := body, sms_body := sms_body, channels := channels }
    let job1 := if !email_recipients.isEmpty then
        { job0 with
          email_total_recipients := email_recipients.length,
          total_recipients := email_recipients.length }
      else job0
    let job2 := if !sms_recipients.isEmpty then
        { job1 with sms_total_recipients := sms_recipients.length }
      else job1
    .ok { job := job2, emailRecipients := email_recipients, smsRecipients := sms_recipients }

/-- The jobs table around one create call: a rejected request leaves the
table as it was and surfaces the 400 detail; an accepted one appends the
new job with its recipient rows. -/
def create_job_db (subject body sms_body : String) (channels : List Channel)
    (residences : List Residence) (db : List JobState) :
    List JobState × Option String :=
  match create_job subject body sms_body channels residences with
  | .error e => (db, some e)
  | .ok st => (db ++ [st], none)

/-!
## Batching and throttling (tasks.py, the loop headers of both dispatchers)

Both dispatchers iterate "for batch_num, i in enumerate(range(0, total,
batch_size))" over their (for SMS: deduplicated) work list, slice the
batch as list[i : i + batch_size], and execute "if batch_num > 0 and
batch_delay > 0: time.sleep(batch_delay)" before the batch body.
-/

/-- Python range(0, stop, step) for a positive step (the configured batch
sizes; range raises on step 0, modelled as the empty list). -/
def pyRange0 (stop step : Nat) : List Nat :=
  if step = 0 then [] else (List.range ((stop + step - 1) / step)).map (· * step)

/-- The batches of one dispatcher run: the i-th slice l[i : i + bs] for
each loop index i of range(0, len(l), bs). -/
def sliceBatches {α : Type} (l : List α) (bs : Nat) : List (List α) :=
  (pyRange0 l.length bs).map (fun i => (l.drop i).take bs)

/-- How many batches the loop forms over a work list of the given length. -/
def numBatches (total bs : Nat) : Nat := (pyRange0 total bs).length

/-- The batch numbers before whose body time.sleep(batch_delay) runs:
every batch_num except 0, and only when the configured delay is
positive. The delay setting is a float compared against zero, an exact
comparison modelled on the rationals. -/
def sleepBatchNums (total bs : Nat) (delay : ℚ) : List Nat :=
  (List.range (numBatches total bs)).filter (fun bn => decide (0 < bn ∧ 0 < delay))

/-!
## Progress (views.py status endpoint, models.py get_overall_progress)

The source computes int((sent + failed) / total * 100) with Python floats
(IEEE-754 binary64): a true division rounded to nearest-even, a
multiplication by 100 rounded again, then truncation toward zero. The
counters involved are 32-bit Django PositiveIntegerFields, so every
intermediate value is a normal double; the model below implements exactly
that arithmetic on (mantissa, exponent) pairs m * 2 ^ (e - 52) with
m in [2 ^ 52, 2 ^ 53).
-/

/-- Round N / D (D positive) to the nearest integer, ties to even. -/
def divRNE (N D : Nat) : Nat :=
  let q := N / D
  let r := N % D
  if D < 2 * r then q + 1
  else if 2 * r < D then q
  else if q % 2 = 0 then q else q + 1

/-- Decide 2 ^ e ≤ p / q over the rationals, for an integer e. -/
def pow2le (q p : Nat) (e : Int) : Bool :=
  if 0 ≤ e then q * 2 ^ e.toNat ≤ p else q ≤ p * 2 ^ (-e).toNat

/-- floor(log2(p / q)) for positive p, q with a ratio inside (2 ^ -96,
2 ^ 96): the largest e in the scanned window with 2 ^ e ≤ p / q. The
window covers every ratio of two 32-bit counters. -/
def floorLog2Ratio (p q : Nat) : Int :=
  ((List.range 193).map (fun i => (i : Int) - 96)).foldl
    (fun acc e => if pow2le q p e then e else acc) (-97)

/-- Round the rational p / q (both positive) to a binary64 value, given as
mantissa m in [2 ^ 52, 2 ^ 53) and exponent e with value m * 2 ^ (e - 52). -/
def roundRatio (p q : Nat) : Nat × Int :=
  let e := floorLog2Ratio p q
  let shift : Int := 52 - e
  let N := if 0 ≤ shift then p * 2 ^ shift.toNat else p
  let D := if 0 ≤ shift then q else q * 2 ^ (-shift).toNat
  let m := divRNE N D
  if m = 2 ^ 53 then (2 ^ 52, e + 1) else (m, e)

/-- Multiply a binary64 value by 100 and round to binary64: the mantissa
grows by a factor in [2 ^ 6, 2 ^ 7), is shifted back into [2 ^ 52, 2 ^ 53)
and rounded to nearest-even. -/
def mul100RNE (me : Nat × Int) : Nat × Int :=
  let M := me.1 * 100
  let s : Nat := if M < 2 ^ 59 then 6 else 7
  let m := divRNE M (2 ^ s)
  if m = 2 ^ 53 then (2 ^ 52, me.2 + (s : Int) + 1) else (m, me.2 + (s : Int))

/-- Python int() on a nonnegative binary64 value: truncation toward zero. -/
def truncFP (me : Nat × Int) : Nat :=
  let E := me.2 - 52
  if 0 ≤ E then me.1 * 2 ^ E.toNat else me.1 / 2 ^ (-E).toNat

/-- int(p / t * 100) as Python evaluates it for counters p and a positive
total t (for p = 0 the division is exactly 0.0 and the result 0). -/
def pyIntPct (p t : Nat) : Nat :=
  if p = 0 then 0 else truncFP (mul100RNE (roundRatio p t))

/-- views.py status: the email_progress_percent field. -/
def email_progress_percent (job : MessageJob) : Nat :=
  if 0 < job.email_total_recipients then
    pyIntPct (job.email_sent_count + job.email_failed_count) job.email_total_recipients
  else 0

/-- views.py status: the sms_progress_percent field. -/
def sms_progress_percent (job : MessageJob) : Nat :=
  if 0 < job.sms_total_recipients then
    pyIntPct (job.sms_sent_count + job.sms_failed_count) job.sms_total_recipients
  else 0

/-- views.py status: the legacy progress_percent field. -/
def legacy_progress_percent (job : MessageJob) : Nat :=
  if 0 < job.total_recipients then
    pyIntPct (job.sent_count + job.failed_count) job.total_recipients
  else 0

/-- models.py MessageJob.get_overall_progress. -/
def get_overall_progress (job : MessageJob) : Nat :=
  let total := job.email_total_recipients + job.sms_total_recipients
  let processed := job.email_sent_count + job.email_failed_count +
    job.sms_sent_count + job.sms_failed_count
  if total = 0 then 0 else pyIntPct processed total

/-!
## Observable operations and reachable job states

The observation points of the invariant claims are the state between
whole store operations: creation, any interrupted or complete dispatcher
run of either channel, finalization, orchestration, the failure stamp of
the orchestrator's exception handler, and retry. Step is one such
operation; Reachable describes every state a created job can inhabit.
-/

/-- The nine counter fields of a job row, in declaration order. -/
def countersOf (st : JobState) :
    Nat × Nat × Nat × Nat × Nat × Nat × Nat × Nat × Nat :=
  (st.job.email_total_recipients, st.job.email_sent_count, st.job.email_failed_count,
   st.job.sms_total_recipients, st.job.sms_sent_count, st.job.sms_failed_count,
   st.job.total_recipients, st.job.sent_count, st.job.failed_count)

/-- One observable store operation on a job. -/
inductive Step : JobState → JobState → Prop
  | email (oracle : String → Option String) (now k : Nat) (st : JobState) :
      Step st (process_email_recipients oracle now k st).1
  | sms (backend : Option (String → Option String)) (now k : Nat) (st : JobState) :
      Step st (process_sms_recipients backend now k st).1
  | finalize (now : Nat) (st : JobState) : Step st (finalize_job now st)
  | orchestrate (emailOracle : String → Option String)
      (smsBackend : Option (String → Option String)) (now : Nat) (st : JobState) :
      Step st (process_message_job emailOracle smsBackend now st)
  | fail (err : String) (now : Nat) (st : JobState) : Step st (markJobFailed err now st)
  | retried (st st' : JobState) (started : Bool) :
      retry st = .ok (st', started) → Step st st'

/-- A job state reachable from a successful create call by any sequence of
observable operations. -/
def Reachable (st : JobState) : Prop :=
  ∃ subject body sms_body channels residences st0,
    create_job subject body sms_body channels residences = .ok st0 ∧
    Relation.ReflTransGen Step st0 st

/-- The per-channel counter bookkeeping invariant of a job state: each
channel total equals its table size, each sent/failed counter counts its
table's rows in that status, and the legacy aggregate fields mirror the
email channel. -/
def Inv (st : JobState) : Prop :=
  st.job.email_total_recipients = st.emailRecipients.length ∧
  st.job.email_sent_count = countStatus .sent st.emailRecipients ∧
  st.job.email_failed_count = countStatus .failed st.emailRecipients ∧
  st.job.sms_total_recipients = st.smsRecipients.length ∧
  st.job.sms_sent_count = countStatus .sent st.smsRecipients ∧
  st.job.sms_failed_count = countStatus .failed st.smsRecipients ∧
  st.job.total_recipients = st.job.email_total_recipients ∧
  st.job.sent_count = st.job.email_sent_count ∧
  st.job.failed_count = st.job.email_failed_count

/-!
## Concrete states used by the witnesses
-/

/-- Two residences: one with a primary email, one with only a phone. -/
def wResidences : List Residence :=
  [⟨[("x@y", false), ("p@y", true)], []⟩, ⟨[], [("+233501234567", true)]⟩]

/-- The state create_job builds from wResidences with both channels. -/
def wCreated : JobState :=
  { job := { subject := "s", body := "b", channels := [Channel.email, Channel.sms],
             email_total_recipients := 1, total_recipients := 1,
             sms_total_recipients := 1 },
    emailRecipients := [{ dest := "p@y" }],
    smsRecipients := [{ dest := "+233501234567" }] }

/-- A two-channel job mid-run: two pending emails after one terminal one,
and three pending SMS rows of which two share one number. -/
def wMidRun : JobState :=
  { job := { channels := [Channel.email, Channel.sms] },
    emailRecipients :=
      [⟨"a@x", .sent, "", some 1⟩, ⟨"b@x", .pending, "", none⟩,
       ⟨"c@x", .pending, "", none⟩],
    smsRecipients :=
      [⟨"+10", .pending, "", none⟩, ⟨"+11", .failed, "e", none⟩,
       ⟨"+10", .pending, "", none⟩, ⟨"+12", .pending, "", none⟩] }

/-- A job whose recipients are all terminal: one sent email, one failed
SMS row. -/
def wNoPending : JobState :=
  { job := { channels := [Channel.email, Channel.sms], status := .processing,
             email_total_recipients := 1, email_sent_count := 1,
             sms_total_recipients := 1, sms_failed_count := 1,
             total_recipients := 1, sent_count := 1 },
    emailRecipients := [⟨"a@x", .sent, "", some 1⟩],
    smsRecipients := [⟨"+10", .failed, "boom", none⟩] }

/-- A single pending SMS recipient, as hit by a misconfigured backend. -/
def wSmsPending : JobState :=
  { job := { channels := [Channel.sms], sms_total_recipients := 1 },
    emailRecipients := [],
    smsRecipients := [{ dest := "+233501234567" }] }

example : pyIntPct 5 10 = 50 := by decide
example : pyIntPct 57 100 = 56 := by decide
example : pyIntPct 1 3 = 33 := by decide

example :
    (process_sms_recipients (some (fun _ => none)) 5 9 wCreated).2 =
    ["+233501234567"] := by decide

/-!
## Counting helpers
-/

theorem countP_disjoint {α : Type} (p q : α → Bool) (l : List α)
    (h : ∀ a, ¬(p a = true ∧ q a = true)) :
    l.countP (fun a => p a || q a) = l.countP p + l.countP q := by
  induction l with
  | nil => simp
  | cons a l ih =>
    have ha := h a
    simp only [List.countP_cons, ih]
    cases hp : p a <;> cases hq : q a <;> simp [hp, hq] at ha ⊢ <;> omega

theorem countStatus_le_length (s : RStatus) (rs : List Recipient) :
    countStatus s rs ≤ rs.length :=
  List.countP_le_length _

theorem countSent_add_countFailed_le (rs : List Recipient) :
    countStatus .sent rs + countStatus .failed rs ≤ rs.length := by
  have hd : ∀ r : Recipient,
      ¬((decide (r.status = RStatus.sent)) = true ∧
        (decide (r.status = RStatus.failed)) = true) := by
    intro r h
    simp only [decide_eq_true_eq] at h
    rw [h.1] at h
    exact RStatus.noConfusion h.2
  calc countStatus .sent rs + countStatus .failed rs
      = rs.countP (fun r => decide (r.status = RStatus.sent) ||
          decide (r.status = RStatus.failed)) := (countP_disjoint _ _ rs hd).symm
    _ ≤ rs.length := List.countP_le_length _

theorem countStatus_eq_zero_of_all (s : RStatus) (rs : List Recipient)
    (h : ∀ r ∈ rs, r.status ≠ s) : countStatus s rs = 0 := by
  rw [countStatus, List.countP_eq_zero]
  intro r hr
  simp only [decide_eq_true_eq]
  exact h r hr

theorem countStatus_nil (s : RStatus) : countStatus s [] = 0 := rfl

theorem countStatus_cons (s : RStatus) (r : Recipient) (rs : List Recipient) :
    countStatus s (r :: rs) =
      countStatus s rs + (if r.status = s then 1 else 0) := by
  simp [countStatus, List.countP_cons]

/-!
## Email dispatcher lemmas
-/

theorem processEmailList_length (o : String → Option String) (now : Nat)
    (k : Nat) (rs : List Recipient) :
    (processEmailList o now k rs).recipients.length = rs.length := by
  induction rs generalizing k with
  | nil => simp [processEmailList]
  | cons r rest ih =>
    by_cases h : r.status = RStatus.pending
    · cases k with
      | zero => simp [processEmailList, h]
      | succ k =>
        simp only [processEmailList, h, if_true]
        cases o r.dest <;> simp [ih]
    · simp [processEmailList, h, ih]

theorem processEmailList_countSent (o : String → Option String) (now : Nat)
    (k : Nat) (rs : List Recipient) :
    countStatus .sent (processEmailList o now k rs).recipients =
      countStatus .sent rs + (processEmailList o now k rs).sentInc := by
  induction rs generalizing k with
  | nil => simp [processEmailList, countStatus_nil]
  | cons r rest ih =>
    by_cases h : r.status = RStatus.pending
    · cases k with
      | zero => simp [processEmailList, h]
      | succ k =>
        simp only [processEmailList, h, if_true]
        have := ih k
        cases o r.dest <;> simp only [countStatus_cons] <;> simp [h, this] <;> omega
    · simp only [processEmailList, h, if_false]
      have := ih k
      simp only [countStatus_cons]
      simp [this]
      omega

theorem processEmailList_countFailed (o : String → Option String) (now : Nat)
    (k : Nat) (rs : List Recipient) :
    countStatus .failed (processEmailList o now k rs).recipients =
      countStatus .failed rs + (processEmailList o now k rs).failedInc := by
  induction rs generalizing k with
  | nil => simp [processEmailList, countStatus_nil]
  | cons r rest ih =>
    by_cases h : r.status = RStatus.pending
    · cases k with
      | zero => simp [processEmailList, h]
      | succ k =>
        simp only [processEmailList, h, if_true]
        have := ih k
        cases o r.dest <;> simp only [countStatus_cons] <;> simp [h, this] <;> omega
    · simp only [processEmailList, h, if_false]
      have := ih k
      simp only [countStatus_cons]
      simp [this]
      omega

theorem processEmailList_callsLength (o : String → Option String) (now : Nat)
    (k : Nat) (rs : List Recipient) :
    (processEmailList o now k rs).calls.length =
      min k (countStatus .pending rs) := by
  induction rs generalizing k with
  | nil => simp [processEmailList, countStatus_nil]
  | cons r rest ih =>
    by_cases h : r.status = RStatus.pending
    · cases k with
      | zero => simp [processEmailList, h]
      | succ k =>
        simp only [processEmailList, h, if_true]
        have := ih k
        cases o r.dest <;> simp only [countStatus_cons] <;> simp [h, this] <;> omega
    · simp only [processEmailList, h, if_false, countStatus_cons]
      have := ih k
      simp [h, this]

theorem processEmailList_countPending (o : String → Option String) (now : Nat)
    (k : Nat) (rs : List Recipient) :
    countStatus .pending (processEmailList o now k rs).recipients =
      countStatus .pending rs - k := by
  induction rs generalizing k with
  | nil => simp [processEmailList, countStatus_nil]
  | cons r rest ih =>
    by_cases h : r.status = RStatus.pending
    · cases k with
      | zero => simp [processEmailList, h, countStatus_cons]
      | succ k =>
        simp only [processEmailList, h, if_true]
        have := ih k
        cases o r.dest <;> simp only [countStatus_cons] <;> simp [h, this] <;> omega
    · simp only [processEmailList, h, if_false]
      have := ih k
      simp only [countStatus_cons]
      simp [h, this]

theorem processEmailList_calls_of_le (o : String → Option String) (now : Nat)
    (k : Nat) (rs : List Recipient) (hk : countStatus .pending rs ≤ k) :
    (processEmailList o now k rs).calls =
      (rs.filter (fun r => decide (r.status = RStatus.pending))).map (·.dest) := by
  induction rs generalizing k with
  | nil => simp [processEmailList]
  | cons r rest ih =>
    rw [countStatus_cons] at hk
    by_cases h : r.status = RStatus.pending
    · cases k with
      | zero => simp [h] at hk
      | succ k =>
        simp only [processEmailList, h, if_true]
        have hk' : countStatus .pending rest ≤ k := by simp [h] at hk; omega
        cases o r.dest <;> simp [ih k hk', h]
    · simp only [processEmailList, h, if_false]
      have hk' : countStatus .pending rest ≤ k := by simp [h] at hk; omega
      simp [ih k hk', h]

theorem processEmailList_preserves_terminal (o : String → Option String)
    (now : Nat) (k : Nat) (rs : List Recipient) (i : Nat) (r : Recipient)
    (hi : rs[i]? = some r) (hr : r.status ≠ RStatus.pending) :
    (processEmailList o now k rs).recipients[i]? = some r := by
  induction rs generalizing k i with
  | nil => simp at hi
  | cons a rest ih =>
    by_cases h : a.status = RStatus.pending
    · cases k with
      | zero => simpa [processEmailList, h] using hi
      | succ k =>
        cases i with
        | zero =>
          simp at hi
          rw [← hi] at hr
          exact absurd h hr
        | succ i =>
          simp only [processEmailList, h, if_true]
          simp only [List.getElem?_cons_succ] at hi
          cases o a.dest <;> simpa using ih k i hi
    · simp only [processEmailList, h, if_false]
      cases i with
      | zero => simpa using hi
      | succ i =>
        simp only [List.getElem?_cons_succ] at hi
        simpa using ih k i hi

theorem processEmailList_of_no_pending (o : String → Option String) (now : Nat)
    (k : Nat) (rs : List Recipient) (h : countStatus .pending rs = 0) :
    processEmailList o now k rs = ⟨rs, 0, 0, []⟩ := by
  induction rs generalizing k with
  | nil => simp [processEmailList]
  | cons r rest ih =>
    simp only [countStatus, List.countP_cons] at h
    by_cases hr : r.status = RStatus.pending
    · simp [hr] at h
    · simp only [processEmailList, hr, if_false]
      rw [ih k (by simp [hr] at h; simpa [countStatus] using h)]

/-!
## SMS dispatcher lemmas
-/

theorem markRecipient_of_not_pending (o : String → Option String) (now : Nat)
    (x : String) (r : Recipient) (h : r.status ≠ RStatus.pending) :
    markRecipient o now x r = r := by
  simp [markRecipient, h]

theorem markRecipient_of_ne_dest (o : String → Option String) (now : Nat)
    (x : String) (r : Recipient) (h : r.dest ≠ x) :
    markRecipient o now x r = r := by
  simp [markRecipient, h]

theorem markRecipient_status (o : String → Option String) (now : Nat)
    (x : String) (r : Recipient) (hp : r.status = RStatus.pending)
    (hd : r.dest = x) :
    markRecipient o now x r =
      (match o x with
       | none => { r with status := .sent, sent_at := some now }
       | some e => { r with status := .failed, error_message := e }) := by
  simp [markRecipient, hp, hd]

theorem markRecipient_marked_not_pending (o : String → Option String)
    (now : Nat) (x : String) (r : Recipient) (hp : r.status = RStatus.pending)
    (hd : r.dest = x) :
    (markRecipient o now x r).status ≠ RStatus.pending := by
  rw [markRecipient_status o now x r hp hd]
  cases o x <;> simp

theorem markFold_nil (o : String → Option String) (now : Nat) (r : Recipient) :
    markFold o now [] r = r := rfl

theorem markFold_cons (o : String → Option String) (now : Nat) (x : String)
    (ds : List String) (r : Recipient) :
    markFold o now (x :: ds) r = markFold o now ds (markRecipient o now x r) := rfl

theorem markFold_of_not_pending (o : String → Option String) (now : Nat)
    (ds : List String) (r : Recipient) (h : r.status ≠ RStatus.pending) :
    markFold o now ds r = r := by
  induction ds with
  | nil => rfl
  | cons x ds ih => rw [markFold_cons, markRecipient_of_not_pending o now x r h, ih]

theorem markFold_of_mem (o : String → Option String) (now : Nat)
    (ds : List String) (r : Recipient) (hp : r.status = RStatus.pending)
    (hd : r.dest ∈ ds) :
    markFold o now ds r = markRecipient o now r.dest r := by
  induction ds with
  | nil => simp at hd
  | cons y ds ih =>
    rw [markFold_cons]
    by_cases hy : r.dest = y
    · rw [← hy]
      exact markFold_of_not_pending o now ds _
        (markRecipient_marked_not_pending o now r.dest r hp rfl)
    · rw [markRecipient_of_ne_dest o now y r hy]
      exact ih (by cases hd with
        | head => exact absurd rfl hy
        | tail _ h => exact h)

theorem markFold_of_not_mem (o : String → Option String) (now : Nat)
    (ds : List String) (r : Recipient) (hd : r.dest ∉ ds) :
    markFold o now ds r = r := by
  induction ds with
  | nil => rfl
  | cons y ds ih =>
    rw [markFold_cons, markRecipient_of_ne_dest o now y r (by simp at hd; exact hd.1)]
    exact ih (by simp at hd; exact hd.2)

theorem runSMSDests_recipients (o : String → Option String) (now : Nat)
    (ds : List String) (rs : List Recipient) :
    (runSMSDests o now ds rs).recipients = rs.map (markFold o now ds) := by
  induction ds generalizing rs with
  | nil =>
    simp only [runSMSDests]
    rw [show (markFold o now []) = id from rfl]
    simp
  | cons x ds ih =>
    simp only [runSMSDests]
    cases o x <;>
      simp only [ih, List.map_map] <;>
      exact List.map_congr_left (fun r _ => rfl)

theorem runSMSDests_calls (o : String → Option String) (now : Nat)
    (ds : List String) (rs : List Recipient) :
    (runSMSDests o now ds rs).calls = ds := by
  induction ds generalizing rs with
  | nil => rfl
  | cons x ds ih =>
    simp only [runSMSDests]
    cases o x <;> simp [ih]

theorem runSMSDests_length (o : String → Option String) (now : Nat)
    (ds : List String) (rs : List Recipient) :
    (runSMSDests o now ds rs).recipients.length = rs.length := by
  rw [runSMSDests_recipients, List.length_map]

theorem countSent_map_mark (o : String → Option String) (now : Nat)
    (x : String) (rs : List Recipient) :
    countStatus .sent (rs.map (markRecipient o now x)) =
      countStatus .sent rs +
        (if (o x).isNone then rs.countP (isPendingFor x) else 0) := by
  induction rs with
  | nil => cases o x <;> simp [countStatus_nil]
  | cons r rest ih =>
    simp only [List.map_cons, countStatus_cons, List.countP_cons, ih]
    by_cases hc : r.status = RStatus.pending ∧ r.dest = x
    · rw [markRecipient_status o now x r hc.1 hc.2]
      cases o x <;> simp [isPendingFor, hc.1, hc.2] <;> omega
    · have : markRecipient o now x r = r := by simp [markRecipient, hc]
      rw [this]
      have : isPendingFor x r = false := by
        simp only [isPendingFor, decide_eq_false_iff_not]
        exact hc
      cases o x <;> simp [this] <;> omega

theorem countFailed_map_mark (o : String → Option String) (now : Nat)
    (x : String) (rs : List Recipient) :
    countStatus .failed (rs.map (markRecipient o now x)) =
      countStatus .failed rs +
        (if (o x).isSome then rs.countP (isPendingFor x) else 0) := by
  induction rs with
  | nil => cases o x <;> simp [countStatus_nil]
  | cons r rest ih =>
    simp only [List.map_cons, countStatus_cons, List.countP_cons, ih]
    by_cases hc : r.status = RStatus.pending ∧ r.dest = x
    · rw [markRecipient_status o now x r hc.1 hc.2]
      cases o x <;> simp [isPendingFor, hc.1, hc.2] <;> omega
    · have : markRecipient o now x r = r := by simp [markRecipient, hc]
      rw [this]
      have : isPendingFor x r = false := by
        simp only [isPendingFor, decide_eq_false_iff_not]
        exact hc
      cases o x <;> simp [this] <;> omega

theorem runSMSDests_countSent (o : String → Option String) (now : Nat)
    (ds : List String) (rs : List Recipient) :
    countStatus .sent (runSMSDests o now ds rs).recipients =
      countStatus .sent rs + (runSMSDests o now ds rs).sentInc := by
  induction ds generalizing rs with
  | nil => simp [runSMSDests]
  | cons x ds ih =>
    simp only [runSMSDests]
    have hmap := countSent_map_mark o now x rs
    cases ho : o x <;>
      · rw [ho] at hmap
        simp only []
        rw [ih, hmap]
        simp
        try omega

theorem runSMSDests_countFailed (o : String → Option String) (now : Nat)
    (ds : List String) (rs : List Recipient) :
    countStatus .failed (runSMSDests o now ds rs).recipients =
      countStatus .failed rs + (runSMSDests o now ds rs).failedInc := by
  induction ds generalizing rs with
  | nil => simp [runSMSDests]
  | cons x ds ih =>
    simp only [runSMSDests]
    have hmap := countFailed_map_mark o now x rs
    cases ho : o x <;>
      · rw [ho] at hmap
        simp only []
        rw [ih, hmap]
        simp
        try omega

theorem runSMSDests_sentInc (o : String → Option String) (now : Nat)
    (ds : List String) (rs : List Recipient) (hnd : ds.Nodup) :
    (runSMSDests o now ds rs).sentInc =
      rs.countP (fun r => decide (r.status = RStatus.pending) &&
        decide (r.dest ∈ ds) && (o r.dest).isNone) := by
  induction ds generalizing rs with
  | nil => simp [runSMSDests]
  | cons x ds ih =>
    obtain ⟨hx, hnd'⟩ := List.nodup_cons.mp hnd
    have hrs1 : (rs.map (markRecipient o now x)).countP
        (fun r => decide (r.status = RStatus.pending) &&
          decide (r.dest ∈ ds) && (o r.dest).isNone) =
        rs.countP (fun r => decide (r.status = RStatus.pending) &&
          decide (r.dest ∈ ds) && (o r.dest).isNone) := by
      rw [List.countP_map]
      apply List.countP_congr
      intro r _
      by_cases hc : r.status = RStatus.pending ∧ r.dest = x
      · obtain ⟨hc1, hc2⟩ := hc
        subst hc2
        have hmem : r.dest ∉ ds := hx
        rw [Function.comp_apply, markRecipient_status o now r.dest r hc1 rfl]
        cases ho : o r.dest <;> simp [hc1, hmem, ho]
      · rw [Function.comp_apply,
          show markRecipient o now x r = r by simp [markRecipient, hc]]
    simp only [runSMSDests]
    cases ho : o x
    · simp only []
      rw [ih _ hnd', hrs1]
      have hsum : rs.countP (fun r => decide (r.status = RStatus.pending) &&
          decide (r.dest ∈ x :: ds) && (o r.dest).isNone) =
          rs.countP (fun r => isPendingFor x r ||
            (decide (r.status = RStatus.pending) &&
              decide (r.dest ∈ ds) && (o r.dest).isNone)) := by
        apply List.countP_congr
        intro r _
        by_cases hd : r.dest = x
        · subst hd
          simp [isPendingFor, ho, hx]
        · simp [isPendingFor, hd, List.mem_cons]
      rw [hsum, countP_disjoint]
      · omega
      · intro r hr
        simp only [isPendingFor, Bool.and_eq_true, decide_eq_true_eq] at hr
        exact hx (hr.1.2 ▸ hr.2.1.2)
    · simp only []
      rw [ih _ hnd', hrs1]
      apply List.countP_congr
      intro r _
      by_cases hd : r.dest = x
      · subst hd
        simp [ho]
      · simp [hd, List.mem_cons]

theorem runSMSDests_failedInc (o : String → Option String) (now : Nat)
    (ds : List String) (rs : List Recipient) (hnd : ds.Nodup) :
    (runSMSDests o now ds rs).failedInc =
      rs.countP (fun r => decide (r.status = RStatus.pending) &&
        decide (r.dest ∈ ds) && (o r.dest).isSome) := by
  induction ds generalizing rs with
  | nil => simp [runSMSDests]
  | cons x ds ih =>
    obtain ⟨hx, hnd'⟩ := List.nodup_cons.mp hnd
    have hrs1 : (rs.map (markRecipient o now x)).countP
        (fun r => decide (r.status = RStatus.pending) &&
          decide (r.dest ∈ ds) && (o r.dest).isSome) =
        rs.countP (fun r => decide (r.status = RStatus.pending) &&
          decide (r.dest ∈ ds) && (o r.dest).isSome) := by
      rw [List.countP_map]
      apply List.countP_congr
      intro r _
      by_cases hc : r.status = RStatus.pending ∧ r.dest = x
      · obtain ⟨hc1, hc2⟩ := hc
        subst hc2
        have hmem : r.dest ∉ ds := hx
        rw [Function.comp_apply, markRecipient_status o now r.dest r hc1 rfl]
        cases ho : o r.dest <;> simp [hc1, hmem, ho]
      · rw [Function.comp_apply,
          show markRecipient o now x r = r by simp [markRecipient, hc]]
    simp only [runSMSDests]
    cases ho : o x
    · simp only []
      rw [ih _ hnd', hrs1]
      apply List.countP_congr
      intro r _
      by_cases hd : r.dest = x
      · subst hd
        simp [ho]
      · simp [hd, List.mem_cons]
    · simp only []
      rw [ih _ hnd', hrs1]
      have hsum : rs.countP (fun r => decide (r.status = RStatus.pending) &&
          decide (r.dest ∈ x :: ds) && (o r.dest).isSome) =
          rs.countP (fun r => isPendingFor x r ||
            (decide (r.status = RStatus.pending) &&
              decide (r.dest ∈ ds) && (o r.dest).isSome)) := by
        apply List.countP_congr
        intro r _
        by_cases hd : r.dest = x
        · subst hd
          simp [isPendingFor, ho, hx]
        · simp [isPendingFor, hd, List.mem_cons]
      rw [hsum, countP_disjoint]
      · omega
      · intro r hr
        simp only [isPendingFor, Bool.and_eq_true, decide_eq_true_eq] at hr
        exact hx (hr.1.2 ▸ hr.2.1.2)

theorem countPending_runSMSDests (o : String → Option String) (now : Nat)
    (ds : List String) (rs : List Recipient) :
    countStatus .pending (runSMSDests o now ds rs).recipients =
      rs.countP (fun r => decide (r.status = RStatus.pending) &&
        !decide (r.dest ∈ ds)) := by
  rw [runSMSDests_recipients, countStatus, List.countP_map]
  apply List.countP_congr
  intro r _
  rw [Function.comp_apply]
  by_cases hp : r.status = RStatus.pending
  · by_cases hd : r.dest ∈ ds
    · rw [markFold_of_mem o now ds r hp hd, markRecipient_status o now r.dest r hp rfl]
      cases o r.dest <;> simp [hp, hd]
    · rw [markFold_of_not_mem o now ds r hd]
      simp [hp, hd]
  · rw [markFold_of_not_pending o now ds r hp]
    simp [hp]

theorem runSMSDests_preserves_terminal (o : String → Option String) (now : Nat)
    (ds : List String) (rs : List Recipient) (i : Nat) (r : Recipient)
    (hi : rs[i]? = some r) (hr : r.status ≠ RStatus.pending) :
    (runSMSDests o now ds rs).recipients[i]? = some r := by
  rw [runSMSDests_recipients, List.getElem?_map, hi, Option.map_some']
  rw [markFold_of_not_pending o now ds r hr]

/-!
## First-occurrence deduplication lemmas
-/

theorem firstOccur_aux_mem (l acc : List String) (x : String) :
    x ∈ l.foldl (fun acc d => if d ∈ acc then acc else acc ++ [d]) acc ↔
      x ∈ acc ∨ x ∈ l := by
  induction l generalizing acc with
  | nil => simp
  | cons d l ih =>
    simp only [List.foldl_cons]
    by_cases hd : d ∈ acc
    · rw [if_pos hd, ih]
      simp only [List.mem_cons]
      constructor
      · rintro (h | h)
        · exact Or.inl h
        · exact Or.inr (Or.inr h)
      · rintro (h | h | h)
        · exact Or.inl h
        · exact Or.inl (h ▸ hd)
        · exact Or.inr h
    · rw [if_neg hd, ih]
      simp only [List.mem_append, List.mem_singleton, List.mem_cons]
      tauto

theorem firstOccur_aux_nodup (l acc : List String) (h : acc.Nodup) :
    (l.foldl (fun acc d => if d ∈ acc then acc else acc ++ [d]) acc).Nodup := by
  induction l generalizing acc with
  | nil => exact h
  | cons d l ih =>
    simp only [List.foldl_cons]
    by_cases hd : d ∈ acc
    · rw [if_pos hd]
      exact ih _ h
    · rw [if_neg hd]
      refine ih _ (List.nodup_append.mpr ⟨h, List.nodup_singleton d, ?_⟩)
      intro a ha hb
      simp only [List.mem_singleton] at hb
      exact hd (hb ▸ ha)

theorem firstOccur_aux_length (l acc : List String) :
    (l.foldl (fun acc d => if d ∈ acc then acc else acc ++ [d]) acc).length ≤
      acc.length + l.length := by
  induction l generalizing acc with
  | nil => simp
  | cons d l ih =>
    simp only [List.foldl_cons, List.length_cons]
    by_cases hd : d ∈ acc
    · rw [if_pos hd]
      have := ih acc
      omega
    · rw [if_neg hd]
      have := ih (acc ++ [d])
      simp only [List.length_append, List.length_singleton] at this
      omega

theorem firstOccur_nodup (l : List String) : (firstOccur l).Nodup :=
  firstOccur_aux_nodup l [] List.nodup_nil

theorem mem_firstOccur (l : List String) (x : String) :
    x ∈ firstOccur l ↔ x ∈ l := by
  rw [firstOccur, firstOccur_aux_mem]
  simp

theorem firstOccur_length_le (l : List String) :
    (firstOccur l).length ≤ l.length := by
  have := firstOccur_aux_length l []
  simpa using this

/-!
## Pending-number list lemmas
-/

theorem pendingDests_nodup (rs : List Recipient) : (pendingDests rs).Nodup :=
  firstOccur_nodup _

theorem mem_pendingDests (rs : List Recipient) (r : Recipient) (hr : r ∈ rs)
    (hp : r.status = RStatus.pending) : r.dest ∈ pendingDests rs := by
  rw [pendingDests, mem_firstOccur]
  exact List.mem_map_of_mem _ (List.mem_filter.mpr ⟨hr, by simp [hp]⟩)

theorem pendingDests_length_le (rs : List Recipient) :
    (pendingDests rs).length ≤ rs.length := by
  calc (pendingDests rs).length
      ≤ ((rs.filter (fun r => decide (r.status = RStatus.pending))).map (·.dest)).length :=
        firstOccur_length_le _
    _ = (rs.filter (fun r => decide (r.status = RStatus.pending))).length :=
        List.length_map _ _
    _ ≤ rs.length := List.length_filter_le _ _

theorem pendingDests_of_no_pending (rs : List Recipient)
    (h : countStatus .pending rs = 0) : pendingDests rs = [] := by
  rw [pendingDests, show rs.filter (fun r => decide (r.status = RStatus.pending)) = [] by
    rw [List.filter_eq_nil]
    intro r hr
    simp only [decide_eq_true_eq]
    intro hp
    rw [countStatus, List.countP_eq_zero] at h
    exact h r hr (by simp [hp])]
  rfl

theorem countP_pending_mem_pendingDests (rs : List Recipient) :
    rs.countP (fun r => decide (r.status = RStatus.pending) &&
      decide (r.dest ∈ pendingDests rs)) = countStatus .pending rs := by
  rw [countStatus]
  apply List.countP_congr
  intro r hr
  by_cases hp : r.status = RStatus.pending
  · simp [hp, mem_pendingDests rs r hr hp]
  · simp [hp]

/-!
## Retry reset lemmas
-/

theorem countFailed_map_reset (rs : List Recipient) :
    countStatus .failed (rs.map resetFailedRecipient) = 0 := by
  induction rs with
  | nil => rfl
  | cons r rest ih =>
    simp only [List.map_cons, countStatus_cons, ih]
    by_cases h : r.status = RStatus.failed
    · simp [resetFailedRecipient, h]
    · simp [resetFailedRecipient, h]

theorem countSent_map_reset (rs : List Recipient) :
    countStatus .sent (rs.map resetFailedRecipient) = countStatus .sent rs := by
  induction rs with
  | nil => rfl
  | cons r rest ih =>
    simp only [List.map_cons, countStatus_cons, ih]
    by_cases h : r.status = RStatus.failed
    · simp [resetFailedRecipient, h]
    · simp [resetFailedRecipient, h]

theorem map_reset_of_no_failed (rs : List Recipient)
    (h : countStatus .failed rs = 0) : rs.map resetFailedRecipient = rs := by
  conv_rhs => rw [← List.map_id rs]
  apply List.map_congr_left
  intro r hr
  rw [countStatus, List.countP_eq_zero] at h
  have : r.status ≠ RStatus.failed := by
    intro hf
    exact h r hr (by simp [hf])
  simp [resetFailedRecipient, this, id]

/-!
## Invariant preservation
-/

theorem inv_email (o : String → Option String) (now k : Nat) (st : JobState)
    (h : Inv st) : Inv (process_email_recipients o now k st).1 := by
  obtain ⟨h1, h2, h3, h4, h5, h6, h7, h8, h9⟩ := h
  refine ⟨?_, ?_, ?_, ?_, ?_, ?_, ?_, ?_, ?_⟩ <;>
    simp only [process_email_recipients] <;>
    simp [processEmailList_length, processEmailList_countSent,
      processEmailList_countFailed, h1, h2, h3, h4, h5, h6, h7, h8, h9]

theorem inv_sms (backend : Option (String → Option String)) (now k : Nat)
    (st : JobState) (h : Inv st) : Inv (process_sms_recipients backend now k st).1 := by
  obtain ⟨h1, h2, h3, h4, h5, h6, h7, h8, h9⟩ := h
  cases backend with
  | none => exact ⟨h1, h2, h3, h4, h5, h6, h7, h8, h9⟩
  | some send =>
    refine ⟨?_, ?_, ?_, ?_, ?_, ?_, ?_, ?_, ?_⟩ <;>
      simp only [process_sms_recipients] <;>
      simp [runSMSDests_length, runSMSDests_countSent, runSMSDests_countFailed,
        h1, h2, h3, h4, h5, h6, h7, h8, h9]

theorem inv_finalize (now : Nat) (st : JobState) (h : Inv st) :
    Inv (finalize_job now st) := by
  obtain ⟨h1, h2, h3, h4, h5, h6, h7, h8, h9⟩ := h
  rw [finalize_job]
  by_cases hp : (hasPending st.emailRecipients || hasPending st.smsRecipients) = true
  · rw [if_pos hp]
    exact ⟨h1, h2, h3, h4, h5, h6, h7, h8, h9⟩
  · rw [if_neg hp]
    exact ⟨h1, h2, h3, h4, h5, h6, h7, h8, h9⟩

theorem inv_markJobFailed (err : String) (now : Nat) (st : JobState)
    (h : Inv st) : Inv (markJobFailed err now st) := by
  obtain ⟨h1, h2, h3, h4, h5, h6, h7, h8, h9⟩ := h
  exact ⟨h1, h2, h3, h4, h5, h6, h7, h8, h9⟩

theorem inv_retry (st st' : JobState) (started : Bool)
    (hr : retry st = .ok (st', started)) (h : Inv st) : Inv st' := by
  obtain ⟨h1, h2, h3, h4, h5, h6, h7, h8, h9⟩ := h
  rw [retry] at hr
  by_cases hc : countStatus .failed st.emailRecipients = 0 ∧
      countStatus .failed st.smsRecipients = 0
  · rw [if_pos hc] at hr
    exact absurd hr (by simp)
  · rw [if_neg hc] at hr
    simp only [Except.ok.injEq, Prod.mk.injEq] at hr
    obtain ⟨hst, -⟩ := hr
    subst hst
    by_cases he : 0 < countStatus .failed st.emailRecipients <;>
      by_cases hs : 0 < countStatus .failed st.smsRecipients <;>
      · refine ⟨?_, ?_, ?_, ?_, ?_, ?_, ?_, ?_, ?_⟩ <;>
          simp [he, hs, h1, h2, h3, h4, h5, h6, h7, h8, h9,
            countFailed_map_reset, countSent_map_reset, List.length_map] <;>
          omega

theorem inv_orchestrate (eo : String → Option String)
    (sb : Option (String → Option String)) (now : Nat) (st : JobState)
    (h : Inv st) : Inv (process_message_job eo sb now st) := by
  rw [process_message_job]
  by_cases hc : st.job.status = JStatus.completed
  · rw [if_pos hc]
    exact h
  · rw [if_neg hc]
    simp only []
    apply inv_finalize
    obtain ⟨h1, h2, h3, h4, h5, h6, h7, h8, h9⟩ := h
    have hst1 : Inv { st with job := { st.job with
        status := .processing, started_at := some (st.job.started_at.getD now) } } :=
      ⟨h1, h2, h3, h4, h5, h6, h7, h8, h9⟩
    by_cases hce : Channel.email ∈ st.job.channels <;>
      by_cases hcs : Channel.sms ∈ st.job.channels <;>
      simp only [hce, hcs, if_true, if_false, process_email_recipients,
        process_sms_recipients] <;>
      first
        | exact hst1
        | (first
            | exact inv_sms _ now _ _ (inv_email eo now _ _ hst1)
            | exact inv_email eo now _ _ hst1
            | exact inv_sms _ now _ _ hst1)

theorem inv_step (st st' : JobState) (hs : Step st st') (h : Inv st) : Inv st' := by
  cases hs with
  | email o now k st => exact inv_email o now k st h
  | sms b now k st => exact inv_sms b now k st h
  | finalize now st => exact inv_finalize now st h
  | orchestrate eo sb now st => exact inv_orchestrate eo sb now st h
  | fail err now st => exact inv_markJobFailed err now st h
  | retried st st' started hr => exact inv_retry st st' started hr h

theorem created_recipient_pending (rsd : List Residence)
    (f : Residence → Option String) (r : Recipient)
    (hr : r ∈ rsd.filterMap (fun a => (f a).map (fun e => ({ dest := e } : Recipient)))) :
    r.status = RStatus.pending := by
  rw [List.mem_filterMap] at hr
  obtain ⟨a, -, ha⟩ := hr
  rw [Option.map_eq_some'] at ha
  obtain ⟨e, -, he⟩ := ha
  rw [← he]

theorem create_ok_inv (subject body sms_body : String) (channels : List Channel)
    (residences : List Residence) (st : JobState)
    (h : create_job subject body sms_body channels residences = .ok st) : Inv st := by
  rw [create_job] at h
  by_cases hcond : ((if Channel.email ∈ channels then
        residences.filter (fun r => !r.email_addresses.isEmpty) else []).isEmpty = true ∧
      (if Channel.sms ∈ channels then
        residences.filter (fun r => !r.phone_numbers.isEmpty) else []).isEmpty = true)
  · rw [if_pos hcond] at h
    exact absurd h (by simp)
  · rw [if_neg hcond] at h
    simp only [Except.ok.injEq] at h
    subst h
    have hep : ∀ r ∈ (if Channel.email ∈ channels then
          residences.filter (fun r => !r.email_addresses.isEmpty) else []).filterMap
        (fun r => (get_recipient_email r).map (fun e => ({ dest := e } : Recipient))),
        r.status = RStatus.pending :=
      fun r hr => created_recipient_pending _ get_recipient_email r hr
    have hsp : ∀ r ∈ (if Channel.sms ∈ channels then
          residences.filter (fun r => !r.phone_numbers.isEmpty) else []).filterMap
        (fun r => (get_recipient_phone r).map (fun p => ({ dest := p } : Recipient))),
        r.status = RStatus.pending :=
      fun r hr => created_recipient_pending _ get_recipient_phone r hr
    have hE1 : countStatus .sent ((if Channel.email ∈ channels then
          residences.filter (fun r => !r.email_addresses.isEmpty) else []).filterMap
        (fun r => (get_recipient_email r).map (fun e => ({ dest := e } : Recipient)))) = 0 :=
      countStatus_eq_zero_of_all _ _ (fun r hr => by simp [hep r hr])
    have hE2 : countStatus .failed ((if Channel.email ∈ channels then
          residences.filter (fun r => !r.email_addresses.isEmpty) else []).filterMap
        (fun r => (get_recipient_email r).map (fun e => ({ dest := e } : Recipient)))) = 0 :=
      countStatus_eq_zero_of_all _ _ (fun r hr => by simp [hep r hr])
    have hS1 : countStatus .sent ((if Channel.sms ∈ channels then
          residences.filter (fun r => !r.phone_numbers.isEmpty) else []).filterMap
        (fun r => (get_recipient_phone r).map (fun p => ({ dest := p } : Recipient)))) = 0 :=
      countStatus_eq_zero_of_all _ _ (fun r hr => by simp [hsp r hr])
    have hS2 : countStatus .failed ((if Channel.sms ∈ channels then
          residences.filter (fun r => !r.phone_numbers.isEmpty) else []).filterMap
        (fun r => (get_recipient_phone r).map (fun p => ({ dest := p } : Recipient)))) = 0 :=
      countStatus_eq_zero_of_all _ _ (fun r hr => by simp [hsp r hr])
    by_cases hee : ((if Channel.email ∈ channels then
          residences.filter (fun r => !r.email_addresses.isEmpty) else []).filterMap
        (fun r => (get_recipient_email r).map
          (fun e => ({ dest := e } : Recipient)))).isEmpty <;>
      by_cases hss : ((if Channel.sms ∈ channels then
            residences.filter (fun r => !r.phone_numbers.isEmpty) else []).filterMap
          (fun r => (get_recipient_phone r).map
            (fun p => ({ dest := p } : Recipient)))).isEmpty <;>
      refine ⟨?_, ?_, ?_, ?_, ?_, ?_, ?_, ?_, ?_⟩ <;>
        simp only [hee, hss, Bool.not_true, Bool.not_false, if_true, if_false,
          Bool.false_eq_true, if_neg] <;>
        (try simp [hE1, hE2, hS1, hS2]) <;>
        first
          | rfl
          | (rw [List.isEmpty_iff.mp hee]; rfl)
          | (rw [List.isEmpty_iff.mp hss]; rfl)

theorem reachable_inv (st : JobState) (h : Reachable st) : Inv st := by
  obtain ⟨su, b, sb, ch, res, st0, hc, hsteps⟩ := h
  have h0 : Inv st0 := create_ok_inv su b sb ch res st0 hc
  induction hsteps with
  | refl => exact h0
  | tail _ hstep ih => exact inv_step _ _ hstep ih

/-!
## No-pending runs and the orchestrator
-/

theorem hasPending_false_iff (rs : List Recipient) :
    hasPending rs = false ↔ countStatus .pending rs = 0 := by
  simp [hasPending, countStatus, List.any_eq_false, List.countP_eq_zero]

theorem process_email_no_pending (o : String → Option String) (now k : Nat)
    (st : JobState) (h : countStatus .pending st.emailRecipients = 0) :
    (process_email_recipients o now k st).1 = st := by
  rw [process_email_recipients, processEmailList_of_no_pending o now k _ h]
  rfl

theorem process_sms_no_pending (b : Option (String → Option String)) (now k : Nat)
    (st : JobState) (h : countStatus .pending st.smsRecipients = 0) :
    (process_sms_recipients b now k st).1 = st := by
  cases b with
  | none => rfl
  | some send =>
    rw [process_sms_recipients]
    rw [show pendingDests st.smsRecipients = [] from pendingDests_of_no_pending _ h,
      List.take_nil]
    rfl

theorem finalize_job_completes (now : Nat) (st : JobState)
    (he : countStatus .pending st.emailRecipients = 0)
    (hs : countStatus .pending st.smsRecipients = 0) :
    finalize_job now st = { st with job := { st.job with
      status := .completed,
      completed_at := some now } } := by
  rw [finalize_job, (hasPending_false_iff _).mpr he, (hasPending_false_iff _).mpr hs]
  simp

theorem process_message_job_no_pending (eo : String → Option String)
    (sb : Option (String → Option String)) (now : Nat) (st : JobState)
    (he : countStatus .pending st.emailRecipients = 0)
    (hs : countStatus .pending st.smsRecipients = 0)
    (hc : ¬st.job.status = JStatus.completed) :
    process_message_job eo sb now st =
      { st with job := { st.job with
          status := .completed,
          started_at := some (st.job.started_at.getD now),
          completed_at := some now } } := by
  rw [process_message_job, if_neg hc]
  simp only [process_email_no_pending, process_sms_no_pending, ite_self,
    finalize_job_completes, he, hs]

/-!
## Batching lemmas
-/

theorem pyRange0_succ (stop bs : Nat) (hs : 0 < bs) (hp : 0 < stop) :
    pyRange0 stop bs = 0 :: (pyRange0 (stop - bs) bs).map (· + bs) := by
  have hbs0 : ¬bs = 0 := Nat.pos_iff_ne_zero.mp hs
  have h1 : stop + bs - 1 = stop - 1 + bs := by omega
  have h2 : (stop + bs - 1) / bs = (stop - 1) / bs + 1 := by
    rw [h1, Nat.add_div_right _ hs]
  have h3 : (stop - bs + bs - 1) / bs = (stop - 1) / bs := by
    rcases le_or_lt stop bs with hle | hlt
    · have hz : stop - bs = 0 := by omega
      rw [hz, Nat.zero_add, Nat.div_eq_of_lt (by omega), Nat.div_eq_of_lt (by omega)]
    · have hss : stop - bs + bs - 1 = stop - 1 := by omega
      rw [hss]
  rw [pyRange0, pyRange0, if_neg hbs0, if_neg hbs0, h2, h3,
    List.range_succ_eq_map]
  simp only [List.map_cons, List.map_map, Nat.zero_mul]
  congr 1
  apply List.map_congr_left
  intro i _
  simp [Function.comp, Nat.succ_mul]

theorem sliceBatches_cons {α : Type} (l : List α) (bs : Nat) (hs : 0 < bs)
    (hl : l ≠ []) :
    sliceBatches l bs = l.take bs :: sliceBatches (l.drop bs) bs := by
  rw [sliceBatches, pyRange0_succ _ _ hs (List.length_pos.mpr hl)]
  simp only [List.map_cons, List.drop_zero, List.map_map]
  congr 1
  rw [sliceBatches, List.length_drop]
  apply List.map_congr_left
  intro i _
  simp only [Function.comp_apply]
  rw [List.drop_drop, Nat.add_comm bs i]

theorem sliceBatches_join_aux {α : Type} (bs : Nat) (hs : 0 < bs) :
    ∀ (n : Nat) (l : List α), l.length ≤ n → (sliceBatches l bs).flatten = l := by
  intro n
  induction n with
  | zero =>
    intro l hl
    rw [Nat.le_zero, List.length_eq_zero] at hl
    subst hl
    simp [sliceBatches, pyRange0, Nat.pos_iff_ne_zero.mp hs,
      Nat.div_eq_of_lt (by omega : 0 + bs - 1 < bs)]
  | succ n ih =>
    intro l hl
    cases l with
    | nil =>
      simp [sliceBatches, pyRange0, Nat.pos_iff_ne_zero.mp hs,
        Nat.div_eq_of_lt (by omega : 0 + bs - 1 < bs)]
    | cons a l' =>
      rw [sliceBatches_cons _ _ hs (by simp)]
      simp only [List.flatten_cons]
      rw [ih _ (by simp only [List.length_drop, List.length_cons] at hl ⊢; omega)]
      exact List.take_append_drop _ _

theorem sliceBatches_join {α : Type} (l : List α) (bs : Nat) (hs : 0 < bs) :
    (sliceBatches l bs).flatten = l :=
  sliceBatches_join_aux bs hs l.length l (Nat.le_refl _)

theorem length_filter_pos_range (n : Nat) :
    ((List.range n).filter (fun bn => decide (0 < bn))).length = n - 1 := by
  induction n with
  | zero => rfl
  | succ n ih =>
    rw [List.range_succ, List.filter_append, List.length_append, ih]
    cases n with
    | zero => simp
    | succ m => simp

theorem sleepBatchNums_of_pos (total bs : Nat) (d : ℚ) (hd : 0 < d) :
    sleepBatchNums total bs d =
      (List.range (numBatches total bs)).filter (fun bn => decide (0 < bn)) := by
  rw [sleepBatchNums]
  apply List.filter_congr
  intro bn _
  simp [hd]

/-!
## Two-run accounting for resume safety
-/

theorem runSMSDests_attempts (o : String → Option String) (now : Nat)
    (ds : List String) (rs : List Recipient) (hnd : ds.Nodup) :
    (runSMSDests o now ds rs).sentInc + (runSMSDests o now ds rs).failedInc =
      rs.countP (fun r => decide (r.status = RStatus.pending) &&
        decide (r.dest ∈ ds)) := by
  rw [runSMSDests_sentInc o now ds rs hnd, runSMSDests_failedInc o now ds rs hnd,
    ← countP_disjoint]
  · apply List.countP_congr
    intro r _
    cases o r.dest <;> simp [Bool.and_assoc]
  · intro r hr
    obtain ⟨ha, hb⟩ := hr
    simp only [Bool.and_eq_true] at ha hb
    cases ho : o r.dest <;> rw [ho] at ha hb <;> simp at ha hb

theorem countP_pending_split (rs : List Recipient) (ds : List String) :
    rs.countP (fun r => decide (r.status = RStatus.pending) &&
        decide (r.dest ∈ ds)) +
      rs.countP (fun r => decide (r.status = RStatus.pending) &&
        !decide (r.dest ∈ ds)) = countStatus .pending rs := by
  rw [← countP_disjoint]
  · rw [countStatus]
    apply List.countP_congr
    intro r _
    by_cases hp : r.status = RStatus.pending <;>
      by_cases hd : r.dest ∈ ds <;> simp [hp, hd]
  · intro r hr
    obtain ⟨ha, hb⟩ := hr
    simp only [Bool.and_eq_true, Bool.not_eq_true'] at ha hb
    rw [ha.2] at hb
    exact Bool.noConfusion hb.2

theorem sms_attempts_two_runs (s1 s2 : String → Option String) (n3 n4 j : Nat)
    (rs : List Recipient) :
    ((runSMSDests s1 n3 ((pendingDests rs).take j) rs).sentInc +
      (runSMSDests s1 n3 ((pendingDests rs).take j) rs).failedInc) +
    ((runSMSDests s2 n4
        ((pendingDests (runSMSDests s1 n3 ((pendingDests rs).take j) rs).recipients).take
          (runSMSDests s1 n3 ((pendingDests rs).take j) rs).recipients.length)
        (runSMSDests s1 n3 ((pendingDests rs).take j) rs).recipients).sentInc +
      (runSMSDests s2 n4
        ((pendingDests (runSMSDests s1 n3 ((pendingDests rs).take j) rs).recipients).take
          (runSMSDests s1 n3 ((pendingDests rs).take j) rs).recipients.length)
        (runSMSDests s1 n3 ((pendingDests rs).take j) rs).recipients).failedInc) =
      countStatus .pending rs := by
  have hnd1 : ((pendingDests rs).take j).Nodup :=
    (pendingDests_nodup rs).sublist (List.take_sublist _ _)
  rw [List.take_of_length_le (pendingDests_length_le _)]
  rw [runSMSDests_attempts s1 n3 _ rs hnd1,
    runSMSDests_attempts s2 n4 _ _ (pendingDests_nodup _),
    countP_pending_mem_pendingDests, countPending_runSMSDests]
  exact countP_pending_split rs _

/-!
## The claims
-/

/-- Claim C2: for every job and at every observation point between
operations (create, dispatch of any prefix of a run — the budget k ranges
over every prefix — finalize, orchestrate, failure stamp, retry), per
channel the sent counter plus the failed counter is at most the
total-recipients counter. -/
theorem c2_sent_plus_failed_le_total (st : JobState) (h : Reachable st) :
    st.job.email_sent_count + st.job.email_failed_count ≤
      st.job.email_total_recipients ∧
    st.job.sms_sent_count + st.job.sms_failed_count ≤
      st.job.sms_total_recipients := by
  obtain ⟨h1, h2, h3, h4, h5, h6, -, -, -⟩ := reachable_inv st h
  constructor
  · rw [h1, h2, h3]
    exact countSent_add_countFailed_le _
  · rw [h4, h5, h6]
    exact countSent_add_countFailed_le _

/-- Witness for C2 at the state created from two concrete residences. -/
theorem c2_witness :
    wCreated.job.email_sent_count + wCreated.job.email_failed_count ≤
      wCreated.job.email_total_recipients ∧
    wCreated.job.sms_sent_count + wCreated.job.sms_failed_count ≤
      wCreated.job.sms_total_recipients :=
  c2_sent_plus_failed_le_total wCreated
    ⟨"s", "b", "", [Channel.email, Channel.sms], wResidences, wCreated, rfl,
      Relation.ReflTransGen.refl⟩

/-- Claim C9: in every reachable job state the legacy aggregate counters
equal the email channel's counters, and an SMS dispatch (with any backend,
clock and budget, from any state) never changes the legacy counters. -/
theorem c9_legacy_mirror (st : JobState) (h : Reachable st) :
    (st.job.total_recipients = st.job.email_total_recipients ∧
     st.job.sent_count = st.job.email_sent_count ∧
     st.job.failed_count = st.job.email_failed_count) ∧
    ∀ (backend : Option (String → Option String)) (now k : Nat) (st' : JobState),
      (process_sms_recipients backend now k st').1.job.total_recipients =
          st'.job.total_recipients ∧
      (process_sms_recipients backend now k st').1.job.sent_count =
          st'.job.sent_count ∧
      (process_sms_recipients backend now k st').1.job.failed_count =
          st'.job.failed_count := by
  obtain ⟨-, -, -, -, -, -, h7, h8, h9⟩ := reachable_inv st h
  refine ⟨⟨h7, h8, h9⟩, ?_⟩
  intro backend now k st'
  cases backend with
  | none => exact ⟨rfl, rfl, rfl⟩
  | some send => exact ⟨rfl, rfl, rfl⟩

/-- Witness for C9 at the state created from two concrete residences. -/
theorem c9_witness :
    (wCreated.job.total_recipients = wCreated.job.email_total_recipients ∧
     wCreated.job.sent_count = wCreated.job.email_sent_count ∧
     wCreated.job.failed_count = wCreated.job.email_failed_count) ∧
    (process_sms_recipients (some (fun _ => none)) 5 9 wCreated).1.job.sent_count =
      wCreated.job.sent_count :=
  ⟨(c9_legacy_mirror wCreated
      ⟨"s", "b", "", [Channel.email, Channel.sms], wResidences, wCreated, rfl,
        Relation.ReflTransGen.refl⟩).1,
   ((c9_legacy_mirror wCreated
      ⟨"s", "b", "", [Channel.email, Channel.sms], wResidences, wCreated, rfl,
        Relation.ReflTransGen.refl⟩).2 (some (fun _ => none)) 5 9 wCreated).2.1⟩

/-- Claim C10: when, for every enabled channel, no residence has a contact
record usable for that channel, create returns the 400 detail and the jobs
table is unchanged — no job row and no recipient rows are written, the
emptiness check running strictly before the job row is created. -/
theorem c10_create_rejects_empty (subject body sms_body : String)
    (channels : List Channel) (residences : List Residence) (db : List JobState)
    (hEmail : Channel.email ∈ channels → ∀ r ∈ residences, r.email_addresses = [])
    (hSms : Channel.sms ∈ channels → ∀ r ∈ residences, r.phone_numbers = []) :
    create_job_db subject body sms_body channels residences db =
      (db, some "No residences with contact information found for the selected channels.") := by
  have he : (if Channel.email ∈ channels then
      residences.filter (fun r => !r.email_addresses.isEmpty) else []) = [] := by
    by_cases hc : Channel.email ∈ channels
    · rw [if_pos hc, List.filter_eq_nil]
      intro r hr
      simp [hEmail hc r hr]
    · rw [if_neg hc]
  have hp : (if Channel.sms ∈ channels then
      residences.filter (fun r => !r.phone_numbers.isEmpty) else []) = [] := by
    by_cases hc : Channel.sms ∈ channels
    · rw [if_pos hc, List.filter_eq_nil]
      intro r hr
      simp [hSms hc r hr]
    · rw [if_neg hc]
  rw [create_job_db, create_job, he, hp]
  rfl

/-- Witness for C10: an email-only request over a residence that has only
a phone number. -/
theorem c10_witness :
    create_job_db "s" "b" "" [Channel.email] [⟨[], [("+1", true)]⟩] [] =
      ([], some "No residences with contact information found for the selected channels.") :=
  c10_create_rejects_empty "s" "b" "" [Channel.email] [⟨[], [("+1", true)]⟩] []
    (fun _ r hr => by
      cases hr with
      | head => rfl
      | tail _ h => cases h)
    (fun hmem => by cases hmem with | tail _ h => cases h)

set_option maxRecDepth 4000 in
/-- Claim C5: both dispatchers slice their work list as
list[i : i + batch_size] for i in range(0, len, batch_size) — fixed-size
batches in original order whose concatenation is the whole list — and
sleep batch_delay seconds before every batch except the first (the sleep
guard also requires a positive delay, which the claim's delay 1.0 is);
for 130 work items with batch size 50 and delay 1.0 this gives exactly
three batches of sizes 50, 50, 30 and two inter-batch delays, none before
batch 0. -/
theorem c5_batching_throttling :
    ((sliceBatches (List.range 130) 50).map List.length = [50, 50, 30] ∧
      numBatches 130 50 = 3 ∧
      sleepBatchNums 130 50 1 = [1, 2]) ∧
    (∀ (α : Type) (l : List α) (bs : Nat), 0 < bs →
      (sliceBatches l bs).flatten = l) ∧
    (∀ (total bs : Nat) (d : ℚ), 0 < d →
      0 ∉ sleepBatchNums total bs d ∧
      (sleepBatchNums total bs d).length = numBatches total bs - 1) := by
  refine ⟨⟨by decide, by decide, by decide⟩, ?_, ?_⟩
  · intro α l bs hbs
    exact sliceBatches_join l bs hbs
  · intro total bs d hd
    constructor
    · intro hmem
      rw [sleepBatchNums, List.mem_filter] at hmem
      simp at hmem
    · rw [sleepBatchNums_of_pos total bs d hd, length_filter_pos_range]

/-- Witness for C5's universally quantified parts at concrete values. -/
theorem c5_witness :
    (sliceBatches (List.range 130) 50).flatten = List.range 130 ∧
    (sleepBatchNums 130 50 1).length = numBatches 130 50 - 1 :=
  ⟨c5_batching_throttling.2.1 Nat (List.range 130) 50 (by decide),
   (c5_batching_throttling.2.2 130 50 1 (by decide)).2⟩

/-- Claim C8 counterexample: at email total 100 with 57 sent and 0 failed,
the status endpoint computes int(57 / 100 * 100) in binary64 floats and
returns 56, while the claimed exact formula floor((sent + failed) / total
* 100) — over the naturals, (57 + 0) * 100 / 100 — gives 57, so the claim
is false at this input. -/
theorem c8_progress_counterexample :
    email_progress_percent
        { email_total_recipients := 100, email_sent_count := 57 } ≠
      (57 + 0) * 100 / 100 := by
  decide

/-- Claim C8 (amended): per-channel and overall progress are the binary64
evaluation of int((sent + failed) / total * 100) — truncation toward zero
of two correctly-rounded float operations, which can fall one short of the
exact floor; the value is 0 whenever the channel's total (or, for overall
progress, the combined total) is 0, and agrees with the exact floor on the
spec's example total=10, sent=3, failed=2, where it is 50. -/
theorem c8_progress_amended (job : MessageJob) :
    (job.email_total_recipients = 0 → email_progress_percent job = 0) ∧
    (job.sms_total_recipients = 0 → sms_progress_percent job = 0) ∧
    (job.total_recipients = 0 → legacy_progress_percent job = 0) ∧
    (job.email_total_recipients + job.sms_total_recipients = 0 →
      get_overall_progress job = 0) ∧
    email_progress_percent { email_total_recipients := 10,
                             email_sent_count := 3,
                             email_failed_count := 2 } = 50 ∧
    get_overall_progress { email_total_recipients := 10,
                           email_sent_count := 3,
                           email_failed_count := 2 } = 50 := by
  refine ⟨?_, ?_, ?_, ?_, by decide, by decide⟩ <;>
    intro h <;>
    simp [email_progress_percent, sms_progress_percent, legacy_progress_percent,
      get_overall_progress, h]

/-- Witness for C8 (amended) at a job with both totals zero. -/
theorem c8_witness :
    email_progress_percent { } = 0 ∧ get_overall_progress { } = 0 :=
  ⟨(c8_progress_amended { }).1 rfl, (c8_progress_amended { }).2.2.2.1 rfl⟩

/-- Claim C6: retry is rejected with the 400 detail when no recipient of
either channel is failed; otherwise it resets every failed recipient of
both channels to pending with empty error text and null sent timestamp
(expressed by the per-row reset equation and by both tables being mapped
through it — a channel without failures is mapped identically), zeroes the
failed counter of each channel that had failures (and the legacy
failed_count with the email one), clears error_message and completed_at,
sets the status to processing, and invokes start again (the returned
flag). -/
theorem c6_retry_contract (st : JobState) :
    (countStatus .failed st.emailRecipients = 0 ∧
        countStatus .failed st.smsRecipients = 0 →
      retry st = .error "No failed recipients to retry.") ∧
    (¬(countStatus .failed st.emailRecipients = 0 ∧
        countStatus .failed st.smsRecipients = 0) →
      (∀ r : Recipient, r.status = RStatus.failed →
        resetFailedRecipient r =
          { r with status := .pending, error_message := "", sent_at := none }) ∧
      retry st = .ok
        ({ job := { st.job with
              email_failed_count := if countStatus .failed st.emailRecipients = 0
                then st.job.email_failed_count else 0,
              failed_count := if countStatus .failed st.emailRecipients = 0
                then st.job.failed_count else 0,
              sms_failed_count := if countStatus .failed st.smsRecipients = 0
                then st.job.sms_failed_count else 0,
              status := .processing,
              error_message := "",
              completed_at := none },
            emailRecipients := st.emailRecipients.map resetFailedRecipient,
            smsRecipients := st.smsRecipients.map resetFailedRecipient }, true) ∧
      countStatus .failed (st.emailRecipients.map resetFailedRecipient) = 0 ∧
      countStatus .failed (st.smsRecipients.map resetFailedRecipient) = 0) := by
  constructor
  · intro hc
    rw [retry, if_pos hc]
  · intro hc
    refine ⟨fun r hr => by simp [resetFailedRecipient, hr], ?_,
      countFailed_map_reset _, countFailed_map_reset _⟩
    rw [retry, if_neg hc]
    by_cases he : countStatus .failed st.emailRecipients = 0 <;>
      by_cases hs : countStatus .failed st.smsRecipients = 0
    · exact absurd ⟨he, hs⟩ hc
    · simp only [he, hs, if_pos, if_neg, Nat.pos_iff_ne_zero, ne_eq,
        not_true_eq_false, not_false_eq_true, if_true, if_false, ite_true, ite_false]
      rw [map_reset_of_no_failed _ he]
    · simp only [he, hs, Nat.pos_iff_ne_zero, ne_eq,
        not_true_eq_false, not_false_eq_true, if_true, if_false, ite_true, ite_false]
      rw [map_reset_of_no_failed _ hs]
    · simp only [he, hs, Nat.pos_iff_ne_zero, ne_eq,
        not_true_eq_false, not_false_eq_true, if_true, if_false, ite_true, ite_false]

/-- Witness for C6 at a job with one failed SMS recipient. -/
theorem c6_witness :
    ¬(countStatus .failed wNoPending.emailRecipients = 0 ∧
      countStatus .failed wNoPending.smsRecipients = 0) ∧
    countStatus .failed (wNoPending.smsRecipients.map resetFailedRecipient) = 0 :=
  ⟨by decide, ((c6_retry_contract wNoPending).2 (by decide)).2.2.2⟩

/-- Claim C7: run on an already-completed job is a short-circuit no-op
changing no job or recipient state, and two immediately successive runs on
a job with no pending recipient in either channel change no counter and
leave the status completed. -/
theorem c7_run_idempotent (st : JobState) (eo eo' : String → Option String)
    (sb sb' : Option (String → Option String)) (now now' : Nat) :
    (st.job.status = JStatus.completed → process_message_job eo sb now st = st) ∧
    (hasPending st.emailRecipients = false → hasPending st.smsRecipients = false →
      countersOf (process_message_job eo' sb' now'
          (process_message_job eo sb now st)) = countersOf st ∧
      (process_message_job eo' sb' now'
          (process_message_job eo sb now st)).job.status = JStatus.completed) := by
  constructor
  · intro hc
    rw [process_message_job, if_pos hc]
  · intro he hs
    have he0 : countStatus .pending st.emailRecipients = 0 :=
      (hasPending_false_iff _).mp he
    have hs0 : countStatus .pending st.smsRecipients = 0 :=
      (hasPending_false_iff _).mp hs
    by_cases hc : st.job.status = JStatus.completed
    · have h1 : process_message_job eo sb now st = st := by
        rw [process_message_job, if_pos hc]
      have h2 : process_message_job eo' sb' now' st = st := by
        rw [process_message_job, if_pos hc]
      rw [h1, h2]
      exact ⟨rfl, hc⟩
    · rw [process_message_job_no_pending eo sb now st he0 hs0 hc]
      rw [show process_message_job eo' sb' now'
          { st with job := { st.job with
              status := .completed,
              started_at := some (st.job.started_at.getD now),
              completed_at := some now } } =
          { st with job := { st.job with
              status := .completed,
              started_at := some (st.job.started_at.getD now),
              completed_at := some now } } by
        rw [process_message_job, if_pos rfl]]
      exact ⟨rfl, rfl⟩

/-- Claim C3 counterexample: the claim includes absent credentials detected
at send time among the configuration errors after which every pending
recipient remains pending and none is marked failed; but with the MNotify
backend selected and both credentials absent, dispatching one pending SMS
recipient marks it failed (with the configuration error text) and
increments the failed counter — it does not stay pending. -/
theorem c3_config_error_counterexample :
    (process_sms_recipients (get_sms_backend (.mnotify "" "") (fun _ => none))
        0 1 wSmsPending).1.smsRecipients.map (fun r => r.status) =
      [RStatus.failed] ∧
    (process_sms_recipients (get_sms_backend (.mnotify "" "") (fun _ => none))
        0 1 wSmsPending).1.job.sms_failed_count = 1 := by
  exact ⟨rfl, rfl⟩

/-- Claim C3 (amended): when the SMS transport cannot be loaded at all (an
unresolvable SMS_BACKEND path, raised on first use of the channel), the
dispatcher fails entirely: no send happens and every pending recipient
remains pending, so a later retry or resume can still send them; absent
provider credentials, however, are detected at send time and handled as
per-destination failures, so every snapshot-pending recipient is marked
failed with the configuration error text instead of staying pending. -/
theorem c3_config_error_amended (st : JobState)
    (network : String → Option String) (now k : Nat) :
    process_sms_recipients (get_sms_backend .unloadable network) now k st =
      (st, []) ∧
    (∀ api_key sender_id : String, api_key = "" ∨ sender_id = "" →
      ∀ (i : Nat) (r : Recipient),
        st.smsRecipients[i]? = some r → r.status = RStatus.pending →
        (process_sms_recipients
            (get_sms_backend (.mnotify api_key sender_id) network)
            now st.smsRecipients.length st).1.smsRecipients[i]? =
          some { r with
                 status := .failed,
                 error_message := "MNotify backend not configured. Check settings." }) := by
  constructor
  · rfl
  · intro api_key sender_id hcred i r hi hp
    have hmem : r.dest ∈ pendingDests st.smsRecipients :=
      mem_pendingDests _ r (List.getElem?_mem hi) hp
    simp only [get_sms_backend, process_sms_recipients]
    rw [List.take_of_length_le (pendingDests_length_le _), runSMSDests_recipients,
      List.getElem?_map, hi, Option.map_some']
    rw [markFold_of_mem _ now _ r hp hmem,
      markRecipient_status _ now r.dest r hp rfl, if_pos hcred]

/-- Witness for C3 (amended): the unloadable-backend no-op and the
credentials-absent failure marking on the concrete one-recipient state. -/
theorem c3_witness :
    process_sms_recipients (get_sms_backend .unloadable (fun _ => none)) 0 1
        wSmsPending = (wSmsPending, []) ∧
    (process_sms_recipients
        (get_sms_backend (.mnotify "" "x") (fun _ => none)) 0
        wSmsPending.smsRecipients.length wSmsPending).1.smsRecipients[0]? =
      some { dest := "+233501234567",
             status := .failed,
             error_message := "MNotify backend not configured. Check settings." } :=
  ⟨(c3_config_error_amended wSmsPending (fun _ => none) 0 1).1,
   (c3_config_error_amended wSmsPending (fun _ => none) 0 1).2 "" "x"
     (Or.inl rfl) 0 { dest := "+233501234567" } rfl rfl⟩

/-- Claim C4: in a full SMS dispatch, a phone number shared by two or more
pending recipients is sent to exactly once (one transport call in the call
log), every pending recipient with that number transitions to the same
terminal state produced by that one call — all sent with the same
timestamp on success, all failed with the same captured error text on
failure — and the per-channel counters grow by the number of recipients
affected: the sent counter by the number of pending recipients whose
number succeeded, the failed counter by the number whose number failed. -/
theorem c4_sms_dedup (st : JobState) (send : String → Option String)
    (now : Nat) (x : String)
    (h2 : 2 ≤ st.smsRecipients.countP (isPendingFor x)) :
    (process_sms_recipients (some send) now st.smsRecipients.length st).2.count x
      = 1 ∧
    (∀ (i : Nat) (r : Recipient),
      st.smsRecipients[i]? = some r → r.status = RStatus.pending →
      r.dest = x →
      (process_sms_recipients (some send) now
          st.smsRecipients.length st).1.smsRecipients[i]? =
        some (match send x with
          | none => { r with status := .sent, sent_at := some now }
          | some e => { r with status := .failed, error_message := e })) ∧
    (process_sms_recipients (some send) now
        st.smsRecipients.length st).1.job.sms_sent_count =
      st.job.sms_sent_count + st.smsRecipients.countP
        (fun r => decide (r.status = RStatus.pending) && (send r.dest).isNone) ∧
    (process_sms_recipients (some send) now
        st.smsRecipients.length st).1.job.sms_failed_count =
      st.job.sms_failed_count + st.smsRecipients.countP
        (fun r => decide (r.status = RStatus.pending) && (send r.dest).isSome) := by
  have hxmem : x ∈ pendingDests st.smsRecipients := by
    have hpos : 0 < st.smsRecipients.countP (isPendingFor x) := by omega
    rw [List.countP_pos_iff] at hpos
    obtain ⟨r, hr, hpr⟩ := hpos
    rw [isPendingFor, decide_eq_true_eq] at hpr
    exact hpr.2 ▸ mem_pendingDests _ r hr hpr.1
  refine ⟨?_, ?_, ?_, ?_⟩
  · simp only [process_sms_recipients]
    rw [List.take_of_length_le (pendingDests_length_le _), runSMSDests_calls]
    exact List.count_eq_one_of_mem (pendingDests_nodup _) hxmem
  · intro i r hi hp hd
    simp only [process_sms_recipients]
    rw [List.take_of_length_le (pendingDests_length_le _), runSMSDests_recipients,
      List.getElem?_map, hi, Option.map_some',
      markFold_of_mem _ now _ r hp (mem_pendingDests _ r (List.getElem?_mem hi) hp)]
    rw [markRecipient_status _ now r.dest r hp rfl, hd]
  · simp only [process_sms_recipients]
    rw [List.take_of_length_le (pendingDests_length_le _),
      runSMSDests_sentInc send now _ _ (pendingDests_nodup _)]
    congr 1
    apply List.countP_congr
    intro r hr
    by_cases hp : r.status = RStatus.pending
    · simp [hp, mem_pendingDests _ r hr hp]
    · simp [hp]
  · simp only [process_sms_recipients]
    rw [List.take_of_length_le (pendingDests_length_le _),
      runSMSDests_failedInc send now _ _ (pendingDests_nodup _)]
    congr 1
    apply List.countP_congr
    intro r hr
    by_cases hp : r.status = RStatus.pending
    · simp [hp, mem_pendingDests _ r hr hp]
    · simp [hp]

/-- Claim C1: resume safety. A run of a channel dispatcher interrupted
after k units of its pending snapshot (k recipients for email, k unique
numbers for SMS), followed by a re-invoked run to completion: the second
run attempts exactly the recipients still pending when it starts (for
email its call log is precisely their addresses in order; for SMS its
calls are precisely the numbers still owning a pending recipient), rows
already sent or failed are never touched again by the second run, and the
delivery attempts of both runs together cover each originally-pending
recipient exactly once — for email, transport calls across both runs sum
to the original pending count; for SMS, where one deduplicated call
delivers to every recipient sharing the number, the recipient outcomes
recorded by the two runs (the counter increments) sum to the original
pending count, not double. -/
theorem c1_resume_safety (st st1 st2 st1' st2' : JobState)
    (calls1 calls2 calls1' calls2' : List String)
    (o1 o2 s1 s2 : String → Option String) (n1 n2 n3 n4 k j : Nat)
    (hrunE1 : process_email_recipients o1 n1 k st = (st1, calls1))
    (hrunE2 : process_email_recipients o2 n2 st1.emailRecipients.length st1 =
      (st2, calls2))
    (hrunS1 : process_sms_recipients (some s1) n3 j st = (st1', calls1'))
    (hrunS2 : process_sms_recipients (some s2) n4 st1'.smsRecipients.length st1' =
      (st2', calls2')) :
    (calls2 = (st1.emailRecipients.filter
        (fun r => decide (r.status = RStatus.pending))).map (fun r => r.dest) ∧
     calls1.length + calls2.length = countStatus .pending st.emailRecipients ∧
     ∀ (i : Nat) (r : Recipient), st1.emailRecipients[i]? = some r →
       r.status ≠ RStatus.pending → st2.emailRecipients[i]? = some r) ∧
    (calls2' = pendingDests st1'.smsRecipients ∧
     st2'.job.sms_sent_count + st2'.job.sms_failed_count =
       st.job.sms_sent_count + st.job.sms_failed_count +
         countStatus .pending st.smsRecipients ∧
     ∀ (i : Nat) (r : Recipient), st1'.smsRecipients[i]? = some r →
       r.status ≠ RStatus.pending → st2'.smsRecipients[i]? = some r) := by
  simp only [process_email_recipients, Prod.mk.injEq] at hrunE1
  obtain ⟨hst1, hcalls1⟩ := hrunE1
  subst hst1
  subst hcalls1
  simp only [process_email_recipients, Prod.mk.injEq] at hrunE2
  obtain ⟨hst2, hcalls2⟩ := hrunE2
  subst hst2
  subst hcalls2
  simp only [process_sms_recipients, Prod.mk.injEq] at hrunS1
  obtain ⟨hst1', hcalls1'⟩ := hrunS1
  subst hst1'
  subst hcalls1'
  simp only [process_sms_recipients, Prod.mk.injEq] at hrunS2
  obtain ⟨hst2', hcalls2'⟩ := hrunS2
  subst hst2'
  subst hcalls2'
  refine ⟨⟨?_, ?_, ?_⟩, ⟨?_, ?_, ?_⟩⟩
  · exact processEmailList_calls_of_le o2 n2 _ _ (countStatus_le_length _ _)
  · rw [processEmailList_callsLength, processEmailList_callsLength,
      processEmailList_countPending, processEmailList_length]
    have h1 : countStatus .pending st.emailRecipients ≤ st.emailRecipients.length :=
      countStatus_le_length _ _
    omega
  · intro i r hi hr
    exact processEmailList_preserves_terminal o2 n2 _ _ i r hi hr
  · rw [runSMSDests_calls, List.take_of_length_le (pendingDests_length_le _)]
  · have key := sms_attempts_two_runs s1 s2 n3 n4 j st.smsRecipients
    simp only []
    omega
  · intro i r hi hr
    exact runSMSDests_preserves_terminal s2 n4 _ _ i r hi hr

/-- Witness for C1 on the concrete mid-run state: the email run is
interrupted after one of its two pending recipients, the SMS run after one
of its three pending numbers, and both are then re-invoked to completion. -/
theorem c1_witness :
    ((process_email_recipients (fun _ => none) 2 3
        (process_email_recipients (fun _ => none) 1 1 wMidRun).1).2 =
      ["c@x"]) ∧
    ((process_sms_recipients (some (fun _ => none)) 2 4
        (process_sms_recipients (some (fun _ => some "down")) 1 1 wMidRun).1).1.job.sms_sent_count +
     (process_sms_recipients (some (fun _ => none)) 2 4
        (process_sms_recipients (some (fun _ => some "down")) 1 1 wMidRun).1).1.job.sms_failed_count =
      wMidRun.job.sms_sent_count + wMidRun.job.sms_failed_count +
        countStatus .pending wMidRun.smsRecipients) := by
  have h := c1_resume_safety wMidRun
    (process_email_recipients (fun _ => none) 1 1 wMidRun).1
    (process_email_recipients (fun _ => none) 2 3
      (process_email_recipients (fun _ => none) 1 1 wMidRun).1).1
    (process_sms_recipients (some (fun _ => some "down")) 1 1 wMidRun).1
    (process_sms_recipients (some (fun _ => none)) 2 4
      (process_sms_recipients (some (fun _ => some "down")) 1 1 wMidRun).1).1
    (process_email_recipients (fun _ => none) 1 1 wMidRun).2
    (process_email_recipients (fun _ => none) 2 3
      (process_email_recipients (fun _ => none) 1 1 wMidRun).1).2
    (process_sms_recipients (some (fun _ => some "down")) 1 1 wMidRun).2
    (process_sms_recipients (some (fun _ => none)) 2 4
      (process_sms_recipients (some (fun _ => some "down")) 1 1 wMidRun).1).2
    (fun _ => none) (fun _ => none) (fun _ => some "down") (fun _ => none)
    1 2 1 2 1 1 rfl rfl rfl rfl
  refine ⟨?_, h.2.2.1⟩
  rw [h.1.1]
  decide

/-- Witness for C4 at the mid-run state with two recipients sharing number
+10. -/
theorem c4_witness :
    2 ≤ wMidRun.smsRecipients.countP (isPendingFor "+10") ∧
    (process_sms_recipients (some (fun _ => none)) 9
        wMidRun.smsRecipients.length wMidRun).2.count "+10" = 1 :=
  ⟨by decide, (c4_sms_dedup wMidRun (fun _ => none) 9 "+10" (by decide)).1⟩

/-- Witness for C7 at a processing job whose recipients are all terminal. -/
theorem c7_witness :
    countersOf (process_message_job (fun _ => none) none 3
        (process_message_job (fun _ => none) none 2 wNoPending)) =
      countersOf wNoPending ∧
    (process_message_job (fun _ => none) none 3
        (process_message_job (fun _ => none) none 2 wNoPending)).job.status =
      JStatus.completed :=
  (c7_run_idempotent wNoPending (fun _ => none) (fun _ => none) none none 2 3).2
    rfl rfl

end Residency
